import Mathlib

/-!
Verification of the bandit-strategy engine in `deebo/algos.py`.

The engine is a family of nine strategy classes (Random, EpsilonGreedy,
AnnealingEpsilonGreedy, Boltzmann, AnnealingBoltzmann, Pursuit,
ReinforcementComparison, UCB1, UCB1Tuned), each exposing
`reset` / `select_next_arm` / `update` over per-arm arrays.

Embedding conventions:
* Python lists become `List`; per-arm float arrays become `List ℚ` where the
  algorithm only does field arithmetic (counts, means, probabilities,
  preferences, M2), and `List ℝ` where transcendental functions enter
  (softmax probabilities, UCB confidence values).
* The process-wide random sources (`random.randrange`, `random.random`,
  `random.choices`) are stdlib collaborators, not repository code; each
  `select_next_arm` takes the sampler (or its drawn outcome) as an explicit
  argument and is otherwise the literal selection computation of the source.
* `update` methods mutate `self`; here they map a state to the new state.
  Python indexing (which raises `IndexError` out of `[-len, len)` and wraps
  negative indices) is modelled separately by `pyIdx`-guarded wrappers
  returning `Option`; the unguarded functions take the already-resolved
  non-negative index, exactly as the code behaves on it.
-/

namespace Deebo

/-- Effective index of Python list indexing `l[i]` on a list of length `len`:
`some` of the element position for `-len ≤ i < len` (negative `i` wraps to
`len + i`), `none` (an `IndexError`) otherwise. -/
def pyIdx (len : ℕ) (i : ℤ) : Option ℕ :=
  if 0 ≤ i ∧ i < (len : ℤ) then some i.toNat
  else if -(len : ℤ) ≤ i ∧ i < 0 then some ((len : ℤ) + i).toNat
  else none

/-- First index of the maximum of a list (`np.argmax`): `best`/`bv` track the
current best index and value, `i` the index of the head of the remaining list.
A later element replaces the best only when strictly greater, so the first
maximum wins, as `np.argmax` ties do. -/
def argmaxAux [LinearOrder α] : List α → ℕ → α → ℕ → ℕ
  | [], best, _, _ => best
  | x :: xs, best, bv, i => if bv < x then argmaxAux xs i x (i + 1) else argmaxAux xs best bv (i + 1)

/-- Index of the first maximal element of a list (`np.argmax`); `np.argmax`
errors on an empty list, which we map to the junk value `0`. -/
def argmax [LinearOrder α] : List α → ℕ
  | [] => 0
  | x :: xs => argmaxAux xs 0 x 1

/-- The count/mean update block shared verbatim by every strategy class:
`self.counts[a] += 1; n = self.counts[a]; value = self.emp_means[a];
new_value = ((n - 1)/float(n))*value + (1/float(n))*reward;
self.emp_means[a] = new_value`. -/
def bumpStats (cs : List ℕ) (ms : List ℚ) (a : ℕ) (r : ℚ) : List ℕ × List ℚ :=
  let cs2 := cs.set a (cs.getD a 0 + 1)
  let n : ℕ := cs2.getD a 0
  let value : ℚ := ms.getD a 0
  let newValue : ℚ := ((n - 1 : ℚ) / (n : ℚ)) * value + (1 / (n : ℚ)) * r
  (cs2, ms.set a newValue)

/-- State of class `Random`. -/
structure Random where
  counts : List ℕ
  emp_means : List ℚ

def Random.reset (n_arms : ℕ) : Random :=
  ⟨List.replicate n_arms 0, List.replicate n_arms 0⟩

/-- `Random.select_next_arm`: `random.randrange(len(self.emp_means))`; `rand`
is the stdlib sampler. -/
def Random.select_next_arm (rand : ℕ → ℕ) (s : Random) : ℕ × Random :=
  (rand s.emp_means.length, s)

def Random.update (s : Random) (chosen_arm : ℕ) (reward : ℚ) : Random :=
  let st := bumpStats s.counts s.emp_means chosen_arm reward
  ⟨st.1, st.2⟩

/-- `Random.update` with Python indexing semantics on `chosen_arm`. -/
def Random.updatePy (s : Random) (chosen_arm : ℤ) (reward : ℚ) : Option Random :=
  match pyIdx s.counts.length chosen_arm with
  | none => none
  | some a => some (s.update a reward)

/-- State of class `EpsilonGreedy`. -/
structure EpsilonGreedy where
  epsilon : ℝ
  counts : List ℕ
  emp_means : List ℚ

def EpsilonGreedy.reset (s : EpsilonGreedy) (n_arms : ℕ) : EpsilonGreedy :=
  ⟨s.epsilon, List.replicate n_arms 0, List.replicate n_arms 0⟩

/-- `EpsilonGreedy.select_next_arm`: `x` is the outcome of `random.random()`,
`rand` the stdlib `randrange` sampler. -/
noncomputable def EpsilonGreedy.select_next_arm (x : ℝ) (rand : ℕ → ℕ)
    (s : EpsilonGreedy) : ℕ × EpsilonGreedy :=
  (if x > s.epsilon then argmax s.emp_means else rand s.emp_means.length, s)

def EpsilonGreedy.update (s : EpsilonGreedy) (chosen_arm : ℕ) (reward : ℚ) : EpsilonGreedy :=
  let st := bumpStats s.counts s.emp_means chosen_arm reward
  ⟨s.epsilon, st.1, st.2⟩

/-- State of class `AnnealingEpsilonGreedy`. -/
structure AnnealingEpsilonGreedy where
  counts : List ℕ
  emp_means : List ℚ

def AnnealingEpsilonGreedy.reset (n_arms : ℕ) : AnnealingEpsilonGreedy :=
  ⟨List.replicate n_arms 0, List.replicate n_arms 0⟩

/-- The epsilon computed at each `AnnealingEpsilonGreedy.select_next_arm`:
`t = np.sum(self.counts) + 1; epsilon = 1/math.log(t + 1e-7)`. -/
noncomputable def annealingEpsilon (counts : List ℕ) : ℝ :=
  1 / Real.log (((counts.sum : ℝ) + 1) + 1 / 10 ^ 7)

/-- `AnnealingEpsilonGreedy.select_next_arm`. -/
noncomputable def AnnealingEpsilonGreedy.select_next_arm (x : ℝ) (rand : ℕ → ℕ)
    (s : AnnealingEpsilonGreedy) : ℕ × AnnealingEpsilonGreedy :=
  (if x > annealingEpsilon s.counts then argmax s.emp_means else rand s.emp_means.length, s)

def AnnealingEpsilonGreedy.update (s : AnnealingEpsilonGreedy) (chosen_arm : ℕ)
    (reward : ℚ) : AnnealingEpsilonGreedy :=
  let st := bumpStats s.counts s.emp_means chosen_arm reward
  ⟨st.1, st.2⟩

/-- State of class `Boltzmann`. -/
structure Boltzmann where
  tau : ℝ
  counts : List ℕ
  emp_means : List ℚ

def Boltzmann.reset (s : Boltzmann) (n_arms : ℕ) : Boltzmann :=
  ⟨s.tau, List.replicate n_arms 0, List.replicate n_arms 0⟩

/-- `Boltzmann.select_next_arm`: softmax weights over `emp_means / tau`;
`choice` is the stdlib `random.choices` sampler applied to the weights. -/
noncomputable def Boltzmann.select_next_arm (choice : List ℝ → ℕ)
    (s : Boltzmann) : ℕ × Boltzmann :=
  let z := (s.emp_means.map (fun (v : ℚ) => Real.exp ((v : ℝ) / s.tau))).sum
  let probs := s.emp_means.map (fun (v : ℚ) => Real.exp ((v : ℝ) / s.tau) / z)
  (choice probs, s)

def Boltzmann.update (s : Boltzmann) (chosen_arm : ℕ) (reward : ℚ) : Boltzmann :=
  let st := bumpStats s.counts s.emp_means chosen_arm reward
  ⟨s.tau, st.1, st.2⟩

/-- State of class `AnnealingBoltzmann`. -/
structure AnnealingBoltzmann where
  counts : List ℕ
  emp_means : List ℚ

def AnnealingBoltzmann.reset (n_arms : ℕ) : AnnealingBoltzmann :=
  ⟨List.replicate n_arms 0, List.replicate n_arms 0⟩

/-- `AnnealingBoltzmann.select_next_arm`: like `Boltzmann` with
`tau = 1/math.log(np.sum(counts) + 1 + 1e-7)`. -/
noncomputable def AnnealingBoltzmann.select_next_arm (choice : List ℝ → ℕ)
    (s : AnnealingBoltzmann) : ℕ × AnnealingBoltzmann :=
  let tau := 1 / Real.log (((s.counts.sum : ℝ) + 1) + 1 / 10 ^ 7)
  let z := (s.emp_means.map (fun (v : ℚ) => Real.exp ((v : ℝ) / tau))).sum
  let probs := s.emp_means.map (fun (v : ℚ) => Real.exp ((v : ℝ) / tau) / z)
  (choice probs, s)

def AnnealingBoltzmann.update (s : AnnealingBoltzmann) (chosen_arm : ℕ)
    (reward : ℚ) : AnnealingBoltzmann :=
  let st := bumpStats s.counts s.emp_means chosen_arm reward
  ⟨st.1, st.2⟩

/-- State of class `Pursuit`. -/
structure Pursuit where
  lr : ℚ
  counts : List ℕ
  emp_means : List ℚ
  probs : List ℚ

def Pursuit.reset (s : Pursuit) (n_arms : ℕ) : Pursuit :=
  ⟨s.lr, List.replicate n_arms 0, List.replicate n_arms 0,
    List.replicate n_arms (1 / (n_arms : ℚ))⟩

/-- `Pursuit.select_next_arm`: `random.choices` over `self.probs`. -/
def Pursuit.select_next_arm (choice : List ℚ → ℕ) (s : Pursuit) : ℕ × Pursuit :=
  (choice s.probs, s)

/-- `Pursuit.update`: count/mean block, then — unless `np.sum(emp_means) == 0`
— the loop `for ii in range(len(self.counts))` nudging `probs[ii]` toward the
one-hot distribution on `np.argmax(emp_means)`. -/
def Pursuit.update (s : Pursuit) (chosen_arm : ℕ) (reward : ℚ) : Pursuit :=
  let st := bumpStats s.counts s.emp_means chosen_arm reward
  let probs2 :=
    if st.2.sum = 0 then s.probs
    else
      (List.range st.1.length).map (fun ii =>
        let current_prob := s.probs.getD ii 0
        if ii = argmax st.2 then current_prob + s.lr * (1 - current_prob)
        else current_prob + s.lr * (0 - current_prob))
  ⟨s.lr, st.1, st.2, probs2⟩

/-- State of class `ReinforcementComparison`. -/
structure ReinforcementComparison where
  alpha : ℚ
  beta : ℚ
  counts : List ℕ
  emp_means : List ℚ
  preferences : List ℚ
  exp_rewards : List ℚ
  probs : List ℝ

noncomputable def ReinforcementComparison.reset (s : ReinforcementComparison)
    (n_arms : ℕ) : ReinforcementComparison :=
  ⟨s.alpha, s.beta, List.replicate n_arms 0, List.replicate n_arms 0,
    List.replicate n_arms 0, List.replicate n_arms 0,
    List.replicate n_arms (1 / (n_arms : ℝ))⟩

/-- `ReinforcementComparison.select_next_arm`: `random.choices` over `probs`. -/
def ReinforcementComparison.select_next_arm (choice : List ℝ → ℕ)
    (s : ReinforcementComparison) : ℕ × ReinforcementComparison :=
  (choice s.probs, s)

/-- `ReinforcementComparison.update`: count/mean block, preference bump with
the old expected reward, exponential moving average of the expected reward,
then the probability vector recomputed as softmax over preferences. -/
noncomputable def ReinforcementComparison.update (s : ReinforcementComparison)
    (chosen_arm : ℕ) (reward : ℚ) : ReinforcementComparison :=
  let st := bumpStats s.counts s.emp_means chosen_arm reward
  let prefs2 := s.preferences.set chosen_arm
    (s.preferences.getD chosen_arm 0 + s.beta * (reward - s.exp_rewards.getD chosen_arm 0))
  let expr2 := s.exp_rewards.set chosen_arm
    ((1 - s.alpha) * s.exp_rewards.getD chosen_arm 0 + s.alpha * reward)
  let exp_preference := prefs2.map (fun (p : ℚ) => Real.exp (p : ℝ))
  let ssum := exp_preference.sum
  let probs2 := exp_preference.map (fun e => e / ssum)
  ⟨s.alpha, s.beta, st.1, st.2, prefs2, expr2, probs2⟩

/-- State of class `UCB1`. -/
structure UCB1 where
  counts : List ℕ
  emp_means : List ℚ
  ucbs : List ℝ

def UCB1.reset (n_arms : ℕ) : UCB1 :=
  ⟨List.replicate n_arms 0, List.replicate n_arms 0, List.replicate n_arms 0⟩

/-- `UCB1._update_ucbs` as a function of the fields it reads. -/
noncomputable def UCB1.computeUcbs (counts : List ℕ) (emp_means : List ℚ) : List ℝ :=
  let bonuses := (List.range counts.length).map (fun arm =>
    Real.sqrt ((2 * Real.log ((counts.sum : ℝ) + 1)) / ((counts.getD arm 0 : ℝ) + 1 / 10 ^ 7)))
  List.zipWith (fun (e : ℚ) (b : ℝ) => (e : ℝ) + b) emp_means bonuses

/-- The selection rule shared verbatim by `UCB1.select_next_arm` and
`UCB1Tuned.select_next_arm`: warm-up first pass while
`sum(self.counts) < len(self.counts)` (returning the first zero-count arm, or
Python's implicit `None` if the loop finds none), then `np.argmax(self.ucbs)`. -/
noncomputable def ucbSelect (counts : List ℕ) (ucbs : List ℝ) : Option ℕ :=
  if counts.sum < counts.length then counts.findIdx? (fun c => c == 0)
  else some (argmax ucbs)

/-- `UCB1.select_next_arm`. -/
noncomputable def UCB1.select_next_arm (s : UCB1) : Option ℕ × UCB1 :=
  (ucbSelect s.counts s.ucbs, s)

noncomputable def UCB1.update (s : UCB1) (chosen_arm : ℕ) (reward : ℚ) : UCB1 :=
  let st := bumpStats s.counts s.emp_means chosen_arm reward
  ⟨st.1, st.2, UCB1.computeUcbs st.1 st.2⟩

/-- State of class `UCB1Tuned`. -/
structure UCB1Tuned where
  counts : List ℕ
  emp_means : List ℚ
  M2 : List ℚ
  ucbs : List ℝ

def UCB1Tuned.reset (n_arms : ℕ) : UCB1Tuned :=
  ⟨List.replicate n_arms 0, List.replicate n_arms 0, List.replicate n_arms 0,
    List.replicate n_arms 0⟩

/-- `UCB1Tuned._update_ucbs` as a function of the fields it reads: per-arm
variance bound `V`, its cap at `1/4`, the variance-aware bonus, and the
resulting confidence values. -/
noncomputable def UCB1Tuned.computeUcbs (counts : List ℕ) (emp_means : List ℚ)
    (M2 : List ℚ) : List ℝ :=
  let Vs := (List.range counts.length).map (fun arm =>
    (M2.getD arm 0 : ℝ) / ((counts.getD arm 0 : ℝ) + 1 / 10 ^ 7) +
      Real.sqrt (2 * Real.log ((counts.sum : ℝ) + 1) / ((counts.getD arm 0 : ℝ) + 1 / 10 ^ 7)))
  let mins := Vs.map (fun v => min (1 / 4 : ℝ) v)
  let bonuses := (List.range counts.length).map (fun arm =>
    Real.sqrt (Real.log ((counts.sum : ℝ) + 1) / ((counts.getD arm 0 : ℝ) + 1 / 10 ^ 7) *
      mins.getD arm 0))
  List.zipWith (fun (e : ℚ) (b : ℝ) => (e : ℝ) + b) emp_means bonuses

/-- `UCB1Tuned.select_next_arm`. -/
noncomputable def UCB1Tuned.select_next_arm (s : UCB1Tuned) : Option ℕ × UCB1Tuned :=
  (ucbSelect s.counts s.ucbs, s)

/-- `UCB1Tuned.update`: count bump, mean update keeping the old mean, Welford
`M2` accumulation using both the old and the new mean, then `_update_ucbs`. -/
noncomputable def UCB1Tuned.update (s : UCB1Tuned) (chosen_arm : ℕ) (reward : ℚ) : UCB1Tuned :=
  let cs2 := s.counts.set chosen_arm (s.counts.getD chosen_arm 0 + 1)
  let n : ℕ := cs2.getD chosen_arm 0
  let old_mean := s.emp_means.getD chosen_arm 0
  let new_mean := ((n - 1 : ℚ) / (n : ℚ)) * old_mean + (1 / (n : ℚ)) * reward
  let ms2 := s.emp_means.set chosen_arm new_mean
  let m2b := s.M2.set chosen_arm
    (s.M2.getD chosen_arm 0 + (reward - old_mean) * (reward - new_mean))
  ⟨cs2, ms2, m2b, UCB1Tuned.computeUcbs cs2 ms2 m2b⟩

/-- `UCB1Tuned.update` with Python indexing semantics on `chosen_arm`. -/
noncomputable def UCB1Tuned.updatePy (s : UCB1Tuned) (chosen_arm : ℤ)
    (reward : ℚ) : Option UCB1Tuned :=
  match pyIdx s.counts.length chosen_arm with
  | none => none
  | some a => some (s.update a reward)

/-! Basic list access lemmas used throughout. -/

lemma getD_set_ne {α : Type} (l : List α) {i j : ℕ} (x d : α) (h : i ≠ j) :
    (l.set i x).getD j d = l.getD j d := by
  simp [List.getD_eq_getElem?_getD, List.getElem?_set_ne h]

lemma getD_set_lt {α : Type} (l : List α) {i : ℕ} (x d : α) (h : i < l.length) :
    (l.set i x).getD i d = x := by
  simp [List.getD_eq_getElem?_getD, List.getElem?_set_eq_of_lt x h]

lemma getD_replicate {α : Type} {n i : ℕ} (a d : α) (h : i < n) :
    (List.replicate n a).getD i d = a := by
  simp [List.getD_eq_getElem?_getD, List.getElem?_replicate, h]

/-! Behaviour of the shared count/mean block `bumpStats` on single cells. -/

lemma bumpStats_fst_length (cs : List ℕ) (ms : List ℚ) (b : ℕ) (r : ℚ) :
    (bumpStats cs ms b r).1.length = cs.length := by
  simp [bumpStats]

lemma bumpStats_snd_length (cs : List ℕ) (ms : List ℚ) (b : ℕ) (r : ℚ) :
    (bumpStats cs ms b r).2.length = ms.length := by
  simp [bumpStats]

lemma bumpStats_count_ne (cs : List ℕ) (ms : List ℚ) {b a : ℕ} (r : ℚ) (h : b ≠ a) :
    (bumpStats cs ms b r).1.getD a 0 = cs.getD a 0 := by
  simp only [bumpStats]
  exact getD_set_ne cs _ _ h

lemma bumpStats_mean_ne (cs : List ℕ) (ms : List ℚ) {b a : ℕ} (r : ℚ) (h : b ≠ a) :
    (bumpStats cs ms b r).2.getD a 0 = ms.getD a 0 := by
  simp only [bumpStats]
  exact getD_set_ne ms _ _ h

lemma bumpStats_count_eq (cs : List ℕ) (ms : List ℚ) {a : ℕ} (r : ℚ) (h : a < cs.length) :
    (bumpStats cs ms a r).1.getD a 0 = cs.getD a 0 + 1 := by
  simp only [bumpStats]
  exact getD_set_lt cs _ _ h

lemma bumpStats_mean_eq (cs : List ℕ) (ms : List ℚ) {a : ℕ} (r : ℚ)
    (h : a < cs.length) (hm : a < ms.length) :
    (bumpStats cs ms a r).2.getD a 0 =
      ((cs.getD a 0 : ℚ) * ms.getD a 0 + r) / ((cs.getD a 0 : ℚ) + 1) := by
  have hn : (cs.set a (cs.getD a 0 + 1)).getD a 0 = cs.getD a 0 + 1 := getD_set_lt cs _ _ h
  simp only [bumpStats, hn]
  rw [getD_set_lt ms _ _ hm]
  have hk : ((cs.getD a 0 : ℚ) + 1) ≠ 0 := by positivity
  push_cast
  field_simp

/-- Folding the shared count/mean block over a sequence of
`(chosen_arm, reward)` calls. -/
def statsRun (st : List ℕ × List ℚ) (seq : List (ℕ × ℚ)) : List ℕ × List ℚ :=
  seq.foldl (fun st p => bumpStats st.1 st.2 p.1 p.2) st

lemma statsRun_spec : ∀ (seq : List (ℕ × ℚ)) (cs : List ℕ) (ms : List ℚ) {n a : ℕ},
    a < n → cs.length = n → ms.length = n → (∀ p ∈ seq, p.1 < n) →
    (statsRun (cs, ms) seq).1.length = n ∧
    (statsRun (cs, ms) seq).2.length = n ∧
    (statsRun (cs, ms) seq).1.getD a 0 =
      cs.getD a 0 + (seq.filter (fun p => p.1 = a)).length ∧
    (statsRun (cs, ms) seq).2.getD a 0 * ((statsRun (cs, ms) seq).1.getD a 0 : ℚ) =
      ms.getD a 0 * (cs.getD a 0 : ℚ) +
        ((seq.filter (fun p => p.1 = a)).map (fun p => p.2)).sum ∧
    (seq.filter (fun p => p.1 = a) = [] →
      (statsRun (cs, ms) seq).2.getD a 0 = ms.getD a 0)
  | [], cs, ms, n, a, ha, hcs, hms, _ => by
    refine ⟨hcs, hms, by simp [statsRun], by simp [statsRun], fun _ => rfl⟩
  | p :: rest, cs, ms, n, a, ha, hcs, hms, hseq => by
    have hp : p.1 < n := hseq p (List.mem_cons_self p rest)
    have hrest : ∀ q ∈ rest, q.1 < n := fun q hq => hseq q (List.mem_cons_of_mem p hq)
    have hstep : statsRun (cs, ms) (p :: rest) =
        statsRun (bumpStats cs ms p.1 p.2) rest := rfl
    have hcs2 : (bumpStats cs ms p.1 p.2).1.length = n := by
      rw [bumpStats_fst_length]; exact hcs
    have hms2 : (bumpStats cs ms p.1 p.2).2.length = n := by
      rw [bumpStats_snd_length]; exact hms
    obtain ⟨ih1, ih2, ih3, ih4, ih5⟩ :=
      statsRun_spec rest (bumpStats cs ms p.1 p.2).1 (bumpStats cs ms p.1 p.2).2
        ha hcs2 hms2 hrest
    by_cases hpa : p.1 = a
    · subst hpa
      have hlt : p.1 < cs.length := by rw [hcs]; exact ha
      have hltm : p.1 < ms.length := by rw [hms]; exact ha
      have hc := bumpStats_count_eq cs ms p.2 hlt
      have hmn := bumpStats_mean_eq cs ms p.2 hlt hltm
      have hfil : (p :: rest).filter (fun q => q.1 = p.1) =
          p :: rest.filter (fun q => q.1 = p.1) := by
        simp [List.filter_cons]
      refine ⟨by rw [hstep]; exact ih1, by rw [hstep]; exact ih2, ?_, ?_, ?_⟩
      · rw [hstep, hfil]
        rw [ih3, hc]
        simp only [List.length_cons]
        omega
      · rw [hstep, hfil]
        rw [ih4, hc, hmn]
        have hk : ((cs.getD p.1 0 : ℚ) + 1) ≠ 0 := by positivity
        push_cast
        field_simp
        ring
      · intro hcontra
        rw [hfil] at hcontra
        exact absurd hcontra (List.cons_ne_nil _ _)
    · have hc := bumpStats_count_ne cs ms p.2 hpa
      have hmn := bumpStats_mean_ne cs ms p.2 hpa
      have hfil : (p :: rest).filter (fun q => q.1 = a) =
          rest.filter (fun q => q.1 = a) := by
        simp [List.filter_cons, hpa]
      refine ⟨by rw [hstep]; exact ih1, by rw [hstep]; exact ih2, ?_, ?_, ?_⟩
      · rw [hstep, hfil, ih3, hc]
      · rw [hstep, hfil, ih4, hc, hmn]
      · intro hnil
        rw [hfil] at hnil
        rw [hstep, ih5 hnil, hmn]

/-! Driver folds: a fresh `reset(n_arms)` followed by a sequence of
`update(chosen_arm, reward)` calls, one per strategy class. -/

def Random.run (n : ℕ) (seq : List (ℕ × ℚ)) : Random :=
  seq.foldl (fun s p => s.update p.1 p.2) (Random.reset n)

def EpsilonGreedy.run (epsilon : ℝ) (n : ℕ) (seq : List (ℕ × ℚ)) : EpsilonGreedy :=
  seq.foldl (fun s p => s.update p.1 p.2) ((⟨epsilon, [], []⟩ : EpsilonGreedy).reset n)

def AnnealingEpsilonGreedy.run (n : ℕ) (seq : List (ℕ × ℚ)) : AnnealingEpsilonGreedy :=
  seq.foldl (fun s p => s.update p.1 p.2) (AnnealingEpsilonGreedy.reset n)

def Boltzmann.run (tau : ℝ) (n : ℕ) (seq : List (ℕ × ℚ)) : Boltzmann :=
  seq.foldl (fun s p => s.update p.1 p.2) ((⟨tau, [], []⟩ : Boltzmann).reset n)

def AnnealingBoltzmann.run (n : ℕ) (seq : List (ℕ × ℚ)) : AnnealingBoltzmann :=
  seq.foldl (fun s p => s.update p.1 p.2) (AnnealingBoltzmann.reset n)

def Pursuit.run (lr : ℚ) (n : ℕ) (seq : List (ℕ × ℚ)) : Pursuit :=
  seq.foldl (fun s p => s.update p.1 p.2) ((⟨lr, [], [], []⟩ : Pursuit).reset n)

noncomputable def ReinforcementComparison.run (alpha beta : ℚ) (n : ℕ)
    (seq : List (ℕ × ℚ)) : ReinforcementComparison :=
  seq.foldl (fun s p => s.update p.1 p.2)
    ((⟨alpha, beta, [], [], [], [], []⟩ : ReinforcementComparison).reset n)

noncomputable def UCB1.run (n : ℕ) (seq : List (ℕ × ℚ)) : UCB1 :=
  seq.foldl (fun s p => s.update p.1 p.2) (UCB1.reset n)

noncomputable def UCB1Tuned.run (n : ℕ) (seq : List (ℕ × ℚ)) : UCB1Tuned :=
  seq.foldl (fun s p => s.update p.1 p.2) (UCB1Tuned.reset n)

/-- A fold of any strategy update whose count/mean fields evolve by
`bumpStats` projects onto `statsRun`. -/
lemma foldl_proj {σ : Type} (upd : σ → ℕ → ℚ → σ) (π : σ → List ℕ × List ℚ)
    (hπ : ∀ s a r, π (upd s a r) = bumpStats (π s).1 (π s).2 a r) :
    ∀ (seq : List (ℕ × ℚ)) (s0 : σ),
      π (seq.foldl (fun s p => upd s p.1 p.2) s0) = statsRun (π s0) seq
  | [], s0 => rfl
  | p :: rest, s0 => by
    have h1 := foldl_proj upd π hπ rest (upd s0 p.1 p.2)
    have h2 : statsRun (π s0) (p :: rest) = statsRun (bumpStats (π s0).1 (π s0).2 p.1 p.2) rest := rfl
    simp only [List.foldl_cons, h1, h2, hπ]

/-- The exact-arithmetic mean invariant for `statsRun` started from the
all-zero arrays a `reset(n_arms)` produces. -/
lemma statsRun_reset_spec {n a : ℕ} (seq : List (ℕ × ℚ)) (ha : a < n)
    (hseq : ∀ p ∈ seq, p.1 < n) :
    (statsRun (List.replicate n 0, List.replicate n 0) seq).1.getD a 0 =
      (seq.filter (fun p => p.1 = a)).length ∧
    (statsRun (List.replicate n 0, List.replicate n 0) seq).2.getD a 0 =
      ((seq.filter (fun p => p.1 = a)).map (fun p => p.2)).sum /
        ((seq.filter (fun p => p.1 = a)).length : ℚ) := by
  obtain ⟨_, _, h3, h4, h5⟩ :=
    statsRun_spec seq (List.replicate n 0) (List.replicate n 0) ha
      (List.length_replicate n 0) (List.length_replicate n 0) hseq
  rw [getD_replicate (0 : ℕ) 0 ha] at h3
  rw [getD_replicate (0 : ℚ) 0 ha, getD_replicate (0 : ℕ) 0 ha] at h4
  simp only [Nat.cast_zero, zero_mul, zero_add, zero_mul, zero_add] at h3 h4
  refine ⟨h3, ?_⟩
  by_cases hk : (seq.filter (fun p => p.1 = a)).length = 0
  · have hnil : seq.filter (fun p => p.1 = a) = [] := List.length_eq_zero.mp hk
    rw [h5 hnil, getD_replicate (0 : ℚ) 0 ha, hnil]
    simp
  · have hkq : ((seq.filter (fun p => p.1 = a)).length : ℚ) ≠ 0 := Nat.cast_ne_zero.mpr hk
    rw [eq_div_iff hkq, ← h3, h4]

/-- Number of updates arm `a` receives in a call sequence (the spec's `k`). -/
def armPulls (seq : List (ℕ × ℚ)) (a : ℕ) : ℕ :=
  (seq.filter (fun p => p.1 = a)).length

/-- Arithmetic mean of the rewards fed to arm `a` in a call sequence (the
spec's mean of `r1..rk`; `0` for the empty sequence by the `x / 0 = 0`
convention). -/
def armMean (seq : List (ℕ × ℚ)) (a : ℕ) : ℚ :=
  ((seq.filter (fun p => p.1 = a)).map (fun p => p.2)).sum / (armPulls seq a : ℚ)

lemma getDpair_spec {n a : ℕ} (seq : List (ℕ × ℚ)) (ha : a < n)
    (hseq : ∀ p ∈ seq, p.1 < n) (cs : List ℕ) (ms : List ℚ)
    (h : (cs, ms) = statsRun (List.replicate n 0, List.replicate n 0) seq) :
    cs.getD a 0 = armPulls seq a ∧ ms.getD a 0 = armMean seq a := by
  have base := statsRun_reset_spec seq ha hseq
  have hc : cs = (statsRun (List.replicate n 0, List.replicate n 0) seq).1 :=
    congrArg Prod.fst h
  have hm : ms = (statsRun (List.replicate n 0, List.replicate n 0) seq).2 :=
    congrArg Prod.snd h
  exact ⟨by rw [hc]; exact base.1, by rw [hm]; exact base.2⟩

/-- C1: for every strategy, after `reset(n_arms)` and any interleaved sequence
of valid `update` calls, `count[a]` is the number of updates to arm `a` and
`emp_means[a]` is the exact arithmetic mean of the rewards passed for arm `a`. -/
theorem claim_C1 (n a : ℕ) (seq : List (ℕ × ℚ)) (epsilon tau : ℝ) (lr alpha beta : ℚ)
    (ha : a < n) (hseq : ∀ p ∈ seq, p.1 < n) :
    ((Random.run n seq).counts.getD a 0 = armPulls seq a ∧
      (Random.run n seq).emp_means.getD a 0 = armMean seq a) ∧
    ((EpsilonGreedy.run epsilon n seq).counts.getD a 0 = armPulls seq a ∧
      (EpsilonGreedy.run epsilon n seq).emp_means.getD a 0 = armMean seq a) ∧
    ((AnnealingEpsilonGreedy.run n seq).counts.getD a 0 = armPulls seq a ∧
      (AnnealingEpsilonGreedy.run n seq).emp_means.getD a 0 = armMean seq a) ∧
    ((Boltzmann.run tau n seq).counts.getD a 0 = armPulls seq a ∧
      (Boltzmann.run tau n seq).emp_means.getD a 0 = armMean seq a) ∧
    ((AnnealingBoltzmann.run n seq).counts.getD a 0 = armPulls seq a ∧
      (AnnealingBoltzmann.run n seq).emp_means.getD a 0 = armMean seq a) ∧
    ((Pursuit.run lr n seq).counts.getD a 0 = armPulls seq a ∧
      (Pursuit.run lr n seq).emp_means.getD a 0 = armMean seq a) ∧
    ((ReinforcementComparison.run alpha beta n seq).counts.getD a 0 = armPulls seq a ∧
      (ReinforcementComparison.run alpha beta n seq).emp_means.getD a 0 = armMean seq a) ∧
    ((UCB1.run n seq).counts.getD a 0 = armPulls seq a ∧
      (UCB1.run n seq).emp_means.getD a 0 = armMean seq a) ∧
    ((UCB1Tuned.run n seq).counts.getD a 0 = armPulls seq a ∧
      (UCB1Tuned.run n seq).emp_means.getD a 0 = armMean seq a) := by
  refine ⟨?_, ?_, ?_, ?_, ?_, ?_, ?_, ?_, ?_⟩
  · exact getDpair_spec seq ha hseq _ _
      (foldl_proj Random.update (fun s => (s.counts, s.emp_means))
        (fun _ _ _ => rfl) seq (Random.reset n))
  · exact getDpair_spec seq ha hseq _ _
      (foldl_proj EpsilonGreedy.update (fun s => (s.counts, s.emp_means))
        (fun _ _ _ => rfl) seq ((⟨epsilon, [], []⟩ : EpsilonGreedy).reset n))
  · exact getDpair_spec seq ha hseq _ _
      (foldl_proj AnnealingEpsilonGreedy.update (fun s => (s.counts, s.emp_means))
        (fun _ _ _ => rfl) seq (AnnealingEpsilonGreedy.reset n))
  · exact getDpair_spec seq ha hseq _ _
      (foldl_proj Boltzmann.update (fun s => (s.counts, s.emp_means))
        (fun _ _ _ => rfl) seq ((⟨tau, [], []⟩ : Boltzmann).reset n))
  · exact getDpair_spec seq ha hseq _ _
      (foldl_proj AnnealingBoltzmann.update (fun s => (s.counts, s.emp_means))
        (fun _ _ _ => rfl) seq (AnnealingBoltzmann.reset n))
  · exact getDpair_spec seq ha hseq _ _
      (foldl_proj Pursuit.update (fun s => (s.counts, s.emp_means))
        (fun _ _ _ => rfl) seq ((⟨lr, [], [], []⟩ : Pursuit).reset n))
  · exact getDpair_spec seq ha hseq _ _
      (foldl_proj ReinforcementComparison.update (fun s => (s.counts, s.emp_means))
        (fun _ _ _ => rfl) seq
        ((⟨alpha, beta, [], [], [], [], []⟩ : ReinforcementComparison).reset n))
  · exact getDpair_spec seq ha hseq _ _
      (foldl_proj UCB1.update (fun s => (s.counts, s.emp_means))
        (fun _ _ _ => rfl) seq (UCB1.reset n))
  · exact getDpair_spec seq ha hseq _ _
      (foldl_proj UCB1Tuned.update (fun s => (s.counts, s.emp_means))
        (fun _ _ _ => rfl) seq (UCB1Tuned.reset n))

/-- Concrete two-arm call sequence: arm 0 gets rewards 3 and 5, arm 1 gets 5. -/
def seqC1 : List (ℕ × ℚ) := [(0, 3), (1, 5), (0, 5)]

/-- Witness for C1 at a concrete input (arm 0 pulled twice, mean 4). -/
theorem claim_C1_witness :
    (0 < 2 ∧ ∀ p ∈ seqC1, p.1 < 2) ∧
    (((Random.run 2 seqC1).counts.getD 0 0 = armPulls seqC1 0 ∧
        (Random.run 2 seqC1).emp_means.getD 0 0 = armMean seqC1 0) ∧
      ((EpsilonGreedy.run 0 2 seqC1).counts.getD 0 0 = armPulls seqC1 0 ∧
        (EpsilonGreedy.run 0 2 seqC1).emp_means.getD 0 0 = armMean seqC1 0) ∧
      ((AnnealingEpsilonGreedy.run 2 seqC1).counts.getD 0 0 = armPulls seqC1 0 ∧
        (AnnealingEpsilonGreedy.run 2 seqC1).emp_means.getD 0 0 = armMean seqC1 0) ∧
      ((Boltzmann.run 1 2 seqC1).counts.getD 0 0 = armPulls seqC1 0 ∧
        (Boltzmann.run 1 2 seqC1).emp_means.getD 0 0 = armMean seqC1 0) ∧
      ((AnnealingBoltzmann.run 2 seqC1).counts.getD 0 0 = armPulls seqC1 0 ∧
        (AnnealingBoltzmann.run 2 seqC1).emp_means.getD 0 0 = armMean seqC1 0) ∧
      ((Pursuit.run (1/2) 2 seqC1).counts.getD 0 0 = armPulls seqC1 0 ∧
        (Pursuit.run (1/2) 2 seqC1).emp_means.getD 0 0 = armMean seqC1 0) ∧
      ((ReinforcementComparison.run (1/2) (1/2) 2 seqC1).counts.getD 0 0 = armPulls seqC1 0 ∧
        (ReinforcementComparison.run (1/2) (1/2) 2 seqC1).emp_means.getD 0 0 = armMean seqC1 0) ∧
      ((UCB1.run 2 seqC1).counts.getD 0 0 = armPulls seqC1 0 ∧
        (UCB1.run 2 seqC1).emp_means.getD 0 0 = armMean seqC1 0) ∧
      ((UCB1Tuned.run 2 seqC1).counts.getD 0 0 = armPulls seqC1 0 ∧
        (UCB1Tuned.run 2 seqC1).emp_means.getD 0 0 = armMean seqC1 0)) :=
  ⟨⟨by decide, by decide⟩,
    claim_C1 2 0 seqC1 0 1 (1/2) (1/2) (1/2) (by decide) (by decide)⟩

lemma statsFrame (cs : List ℕ) (ms : List ℚ) (a b : ℕ) (r : ℚ) (h : b ≠ a) :
    (bumpStats cs ms a r).1.getD b 0 = cs.getD b 0 ∧
    (bumpStats cs ms a r).2.getD b 0 = ms.getD b 0 :=
  ⟨bumpStats_count_ne cs ms r (Ne.symm h), bumpStats_mean_ne cs ms r (Ne.symm h)⟩

/-- C9: for every strategy, `update(a, reward)` leaves the pull count and the
running mean of every other arm `b ≠ a` unchanged. -/
theorem claim_C9 :
    (∀ (s : Random) (a b : ℕ) (r : ℚ), b ≠ a →
      (s.update a r).counts.getD b 0 = s.counts.getD b 0 ∧
      (s.update a r).emp_means.getD b 0 = s.emp_means.getD b 0) ∧
    (∀ (s : EpsilonGreedy) (a b : ℕ) (r : ℚ), b ≠ a →
      (s.update a r).counts.getD b 0 = s.counts.getD b 0 ∧
      (s.update a r).emp_means.getD b 0 = s.emp_means.getD b 0) ∧
    (∀ (s : AnnealingEpsilonGreedy) (a b : ℕ) (r : ℚ), b ≠ a →
      (s.update a r).counts.getD b 0 = s.counts.getD b 0 ∧
      (s.update a r).emp_means.getD b 0 = s.emp_means.getD b 0) ∧
    (∀ (s : Boltzmann) (a b : ℕ) (r : ℚ), b ≠ a →
      (s.update a r).counts.getD b 0 = s.counts.getD b 0 ∧
      (s.update a r).emp_means.getD b 0 = s.emp_means.getD b 0) ∧
    (∀ (s : AnnealingBoltzmann) (a b : ℕ) (r : ℚ), b ≠ a →
      (s.update a r).counts.getD b 0 = s.counts.getD b 0 ∧
      (s.update a r).emp_means.getD b 0 = s.emp_means.getD b 0) ∧
    (∀ (s : Pursuit) (a b : ℕ) (r : ℚ), b ≠ a →
      (s.update a r).counts.getD b 0 = s.counts.getD b 0 ∧
      (s.update a r).emp_means.getD b 0 = s.emp_means.getD b 0) ∧
    (∀ (s : ReinforcementComparison) (a b : ℕ) (r : ℚ), b ≠ a →
      (s.update a r).counts.getD b 0 = s.counts.getD b 0 ∧
      (s.update a r).emp_means.getD b 0 = s.emp_means.getD b 0) ∧
    (∀ (s : UCB1) (a b : ℕ) (r : ℚ), b ≠ a →
      (s.update a r).counts.getD b 0 = s.counts.getD b 0 ∧
      (s.update a r).emp_means.getD b 0 = s.emp_means.getD b 0) ∧
    (∀ (s : UCB1Tuned) (a b : ℕ) (r : ℚ), b ≠ a →
      (s.update a r).counts.getD b 0 = s.counts.getD b 0 ∧
      (s.update a r).emp_means.getD b 0 = s.emp_means.getD b 0) :=
  ⟨fun s a b r h => statsFrame s.counts s.emp_means a b r h,
    fun s a b r h => statsFrame s.counts s.emp_means a b r h,
    fun s a b r h => statsFrame s.counts s.emp_means a b r h,
    fun s a b r h => statsFrame s.counts s.emp_means a b r h,
    fun s a b r h => statsFrame s.counts s.emp_means a b r h,
    fun s a b r h => statsFrame s.counts s.emp_means a b r h,
    fun s a b r h => statsFrame s.counts s.emp_means a b r h,
    fun s a b r h => statsFrame s.counts s.emp_means a b r h,
    fun s a b r h => statsFrame s.counts s.emp_means a b r h⟩

/-- Witness for C9 at concrete states: updating arm 0 leaves arm 1's count and
mean alone, shown for `Random` and `UCB1Tuned`. -/
theorem claim_C9_witness :
    ((1 : ℕ) ≠ 0) ∧
    (((Random.mk [2, 3] [5, 7]).update 0 9).counts.getD 1 0 =
        (Random.mk [2, 3] [5, 7]).counts.getD 1 0 ∧
      ((Random.mk [2, 3] [5, 7]).update 0 9).emp_means.getD 1 0 =
        (Random.mk [2, 3] [5, 7]).emp_means.getD 1 0) ∧
    (((UCB1Tuned.reset 2).update 0 9).counts.getD 1 0 =
        (UCB1Tuned.reset 2).counts.getD 1 0 ∧
      ((UCB1Tuned.reset 2).update 0 9).emp_means.getD 1 0 =
        (UCB1Tuned.reset 2).emp_means.getD 1 0) :=
  ⟨by decide, claim_C9.1 (Random.mk [2, 3] [5, 7]) 0 1 9 (by decide),
    (claim_C9.2.2.2.2.2.2.2.2 : _) (UCB1Tuned.reset 2) 0 1 9 (by decide)⟩

/-- C8: every `select_next_arm` returns the state it was given unchanged, for
every strategy, state and outcome of the random draws. -/
theorem claim_C8 :
    (∀ (rand : ℕ → ℕ) (s : Random), (Random.select_next_arm rand s).2 = s) ∧
    (∀ (x : ℝ) (rand : ℕ → ℕ) (s : EpsilonGreedy),
      (EpsilonGreedy.select_next_arm x rand s).2 = s) ∧
    (∀ (x : ℝ) (rand : ℕ → ℕ) (s : AnnealingEpsilonGreedy),
      (AnnealingEpsilonGreedy.select_next_arm x rand s).2 = s) ∧
    (∀ (choice : List ℝ → ℕ) (s : Boltzmann),
      (Boltzmann.select_next_arm choice s).2 = s) ∧
    (∀ (choice : List ℝ → ℕ) (s : AnnealingBoltzmann),
      (AnnealingBoltzmann.select_next_arm choice s).2 = s) ∧
    (∀ (choice : List ℚ → ℕ) (s : Pursuit),
      (Pursuit.select_next_arm choice s).2 = s) ∧
    (∀ (choice : List ℝ → ℕ) (s : ReinforcementComparison),
      (ReinforcementComparison.select_next_arm choice s).2 = s) ∧
    (∀ (s : UCB1), (UCB1.select_next_arm s).2 = s) ∧
    (∀ (s : UCB1Tuned), (UCB1Tuned.select_next_arm s).2 = s) :=
  ⟨fun _ _ => rfl, fun _ _ _ => rfl, fun _ _ _ => rfl, fun _ _ => rfl, fun _ _ => rfl,
    fun _ _ => rfl, fun _ _ => rfl, fun _ => rfl, fun _ => rfl⟩

/-- C2 (failing input): on a freshly reset 3-arm `Pursuit` with `lr = 1/2`,
after `update(0, 1)` then `update(1, -1)` the means are `[1, -1, 0]` — not all
zero — yet the second call performed no probability update at all (the code
skips whenever `np.sum(emp_means) == 0`, and `1 + (-1) + 0 == 0`): `probs`
stays `[2/3, 1/6, 1/6]` instead of receiving the nudge toward the argmax arm
`0`, which would have moved `probs[0]` to `2/3 + (1/2)*(1 - 2/3) = 5/6`. -/
theorem claim_C2 :
    (Pursuit.run (1/2) 3 [(0, 1), (1, -1)]).emp_means = [1, -1, 0] ∧
    (Pursuit.run (1/2) 3 [(0, 1), (1, -1)]).emp_means.getD 0 0 ≠ 0 ∧
    (Pursuit.run (1/2) 3 [(0, 1)]).probs = [2/3, 1/6, 1/6] ∧
    (Pursuit.run (1/2) 3 [(0, 1), (1, -1)]).probs = [2/3, 1/6, 1/6] ∧
    (Pursuit.run (1/2) 3 [(0, 1), (1, -1)]).probs.getD 0 0 ≠
      (Pursuit.run (1/2) 3 [(0, 1)]).probs.getD 0 0 +
        (1/2) * (1 - (Pursuit.run (1/2) 3 [(0, 1)]).probs.getD 0 0) := by
  norm_num [Pursuit.run, Pursuit.update, Pursuit.reset, bumpStats, argmax, argmaxAux,
    List.replicate, List.getD, List.range, List.range.loop]

lemma pyIdx_none {len : ℕ} {i : ℤ} (h : (len : ℤ) ≤ i ∨ i < -(len : ℤ)) :
    pyIdx len i = none := by
  unfold pyIdx
  rw [if_neg (by omega), if_neg (by omega)]

lemma pyIdx_nonneg {len : ℕ} {i : ℤ} (h0 : 0 ≤ i) (h1 : i < (len : ℤ)) :
    pyIdx len i = some i.toNat := by
  unfold pyIdx
  rw [if_pos ⟨h0, h1⟩]

lemma pyIdx_neg {len : ℕ} {i : ℤ} (h0 : -(len : ℤ) ≤ i) (h1 : i < 0) :
    pyIdx len i = some ((len : ℤ) + i).toNat := by
  unfold pyIdx
  rw [if_neg (by omega), if_pos ⟨h0, h1⟩]

/-- C3 (counterexample): `update(-1, 5)` on a freshly reset 3-arm `Random`
strategy does not signal any failure — Python indexing silently wraps the
negative index onto the existing arm `2`, whose count and mean are updated. -/
theorem claim_C3_counterexample :
    Random.updatePy (Random.reset 3) (-1) 5 ≠ none ∧
    (Random.updatePy (Random.reset 3) (-1) 5).map Random.counts = some [0, 0, 1] ∧
    (Random.updatePy (Random.reset 3) (-1) 5).map Random.emp_means = some [0, 0, 5] := by
  have h : pyIdx (3 : ℕ) (-1 : ℤ) = some 2 := by
    rw [pyIdx_neg (by norm_num) (by norm_num)]
    rfl
  refine ⟨?_, ?_, ?_⟩ <;>
    simp [Random.updatePy, Random.reset, Random.update, bumpStats, h,
      List.replicate, List.getD]

/-- C3 (amended): an index `≥ n_arms` or `< -n_arms` — in particular any index
when the arrays are empty, i.e. before any `reset` — raises `IndexError`, and
`update` never grows the arrays; but a negative index in `[-n_arms, 0)` does
not fail: it wraps onto the existing arm `n_arms + chosen_arm`. Shown for the
two classes the claim cites, `Random` and `UCB1Tuned`. -/
theorem claim_C3_amended :
    (∀ (s : Random) (i : ℤ) (r : ℚ),
      (s.counts.length : ℤ) ≤ i ∨ i < -(s.counts.length : ℤ) → s.updatePy i r = none) ∧
    (∀ (s : UCB1Tuned) (i : ℤ) (r : ℚ),
      (s.counts.length : ℤ) ≤ i ∨ i < -(s.counts.length : ℤ) → s.updatePy i r = none) ∧
    (∀ (i : ℤ) (r : ℚ), (Random.mk [] []).updatePy i r = none) ∧
    (∀ (s : Random) (i : ℤ) (r : ℚ), 0 ≤ i → i < (s.counts.length : ℤ) →
      s.updatePy i r = some (s.update i.toNat r)) ∧
    (∀ (s : UCB1Tuned) (i : ℤ) (r : ℚ), 0 ≤ i → i < (s.counts.length : ℤ) →
      s.updatePy i r = some (s.update i.toNat r)) ∧
    (∀ (s : Random) (i : ℤ) (r : ℚ), -(s.counts.length : ℤ) ≤ i → i < 0 →
      s.updatePy i r = some (s.update ((s.counts.length : ℤ) + i).toNat r)) ∧
    (∀ (s : UCB1Tuned) (i : ℤ) (r : ℚ), -(s.counts.length : ℤ) ≤ i → i < 0 →
      s.updatePy i r = some (s.update ((s.counts.length : ℤ) + i).toNat r)) ∧
    (∀ (s : Random) (a : ℕ) (r : ℚ),
      (s.update a r).counts.length = s.counts.length ∧
      (s.update a r).emp_means.length = s.emp_means.length) ∧
    (∀ (s : UCB1Tuned) (a : ℕ) (r : ℚ),
      (s.update a r).counts.length = s.counts.length ∧
      (s.update a r).emp_means.length = s.emp_means.length) := by
  refine ⟨?_, ?_, ?_, ?_, ?_, ?_, ?_, ?_, ?_⟩
  · intro s i r h
    simp [Random.updatePy, pyIdx_none h]
  · intro s i r h
    simp [UCB1Tuned.updatePy, pyIdx_none h]
  · intro i r
    have h : pyIdx 0 i = none := by
      rcases lt_or_le i 0 with hi | hi
      · exact pyIdx_none (Or.inr (by simpa using hi))
      · exact pyIdx_none (Or.inl (by simpa using hi))
    simp [Random.updatePy, h]
  · intro s i r h0 h1
    simp [Random.updatePy, pyIdx_nonneg h0 h1]
  · intro s i r h0 h1
    simp [UCB1Tuned.updatePy, pyIdx_nonneg h0 h1]
  · intro s i r h0 h1
    simp [Random.updatePy, pyIdx_neg h0 h1]
  · intro s i r h0 h1
    simp [UCB1Tuned.updatePy, pyIdx_neg h0 h1]
  · intro s a r
    exact ⟨bumpStats_fst_length s.counts s.emp_means a r,
      bumpStats_snd_length s.counts s.emp_means a r⟩
  · intro s a r
    exact ⟨List.length_set s.counts a _, List.length_set s.emp_means a _⟩

/-- Witness for the amended C3 at concrete inputs: on a 2-arm `Random`, index 5
errors, index 1 updates arm 1, index -2 wraps to arm 0; on a 2-arm `UCB1Tuned`,
index -1 wraps to arm 1; and `update` preserves the array sizes. -/
theorem claim_C3_amended_witness :
    (((Random.reset 2).counts.length : ℤ) ≤ 5 ∧
      (0 : ℤ) ≤ 1 ∧ (1 : ℤ) < ((Random.reset 2).counts.length : ℤ) ∧
      -(((Random.reset 2).counts.length : ℤ)) ≤ -2 ∧ (-2 : ℤ) < 0 ∧
      -(((UCB1Tuned.reset 2).counts.length : ℤ)) ≤ -1 ∧ (-1 : ℤ) < 0) ∧
    (Random.reset 2).updatePy 5 7 = none ∧
    (Random.reset 2).updatePy 1 7 = some ((Random.reset 2).update (1 : ℤ).toNat 7) ∧
    (Random.reset 2).updatePy (-2) 7 =
      some ((Random.reset 2).update (((Random.reset 2).counts.length : ℤ) + (-2)).toNat 7) ∧
    (UCB1Tuned.reset 2).updatePy (-1) 7 =
      some ((UCB1Tuned.reset 2).update (((UCB1Tuned.reset 2).counts.length : ℤ) + (-1)).toNat 7) ∧
    ((Random.reset 2).update 0 7).counts.length = (Random.reset 2).counts.length ∧
    ((Random.reset 2).update 0 7).emp_means.length = (Random.reset 2).emp_means.length :=
  ⟨⟨by norm_num [Random.reset], by norm_num, by norm_num [Random.reset],
      by norm_num [Random.reset], by norm_num, by norm_num [UCB1Tuned.reset], by norm_num⟩,
    claim_C3_amended.1 (Random.reset 2) 5 7 (Or.inl (by norm_num [Random.reset])),
    claim_C3_amended.2.2.2.1 (Random.reset 2) 1 7 (by norm_num) (by norm_num [Random.reset]),
    claim_C3_amended.2.2.2.2.2.1 (Random.reset 2) (-2) 7
      (by norm_num [Random.reset]) (by norm_num),
    claim_C3_amended.2.2.2.2.2.2.1 (UCB1Tuned.reset 2) (-1) 7
      (by norm_num [UCB1Tuned.reset]) (by norm_num),
    (claim_C3_amended.2.2.2.2.2.2.2.1 (Random.reset 2) 0 7).1,
    (claim_C3_amended.2.2.2.2.2.2.2.1 (Random.reset 2) 0 7).2⟩

/-- C7: the annealed epsilon `1/ln((sum counts + 1) + 1e-7)` computed at
selection time by `AnnealingEpsilonGreedy` strictly decreases as the total
pull count grows. -/
theorem claim_C7 (cs1 cs2 : List ℕ) (h : cs1.sum < cs2.sum) :
    annealingEpsilon cs2 < annealingEpsilon cs1 := by
  unfold annealingEpsilon
  have hcast : (cs1.sum : ℝ) < (cs2.sum : ℝ) := Nat.cast_lt.mpr h
  have h0 : (0 : ℝ) ≤ (cs1.sum : ℝ) := Nat.cast_nonneg _
  have heps : (0 : ℝ) < 1 / 10 ^ 7 := by norm_num
  have h1 : (1 : ℝ) < ((cs1.sum : ℝ) + 1) + 1 / 10 ^ 7 := by linarith
  have hlog1 : 0 < Real.log (((cs1.sum : ℝ) + 1) + 1 / 10 ^ 7) := Real.log_pos h1
  have hloglt : Real.log (((cs1.sum : ℝ) + 1) + 1 / 10 ^ 7) <
      Real.log (((cs2.sum : ℝ) + 1) + 1 / 10 ^ 7) :=
    Real.log_lt_log (by linarith) (by linarith)
  exact one_div_lt_one_div_of_lt hlog1 hloglt

/-- Witness for C7: the epsilon after one total pull is below the epsilon
after zero pulls. -/
theorem claim_C7_witness :
    ([] : List ℕ).sum < [1].sum ∧ annealingEpsilon [1] < annealingEpsilon [] :=
  ⟨by decide, claim_C7 [] [1] (by decide)⟩

lemma computeUcbsTuned_getD (cs : List ℕ) (ms : List ℚ) (m2 : List ℚ) {i : ℕ}
    (hm : ms.length = cs.length) (hi : i < cs.length) :
    (UCB1Tuned.computeUcbs cs ms m2).getD i 0 =
      (ms.getD i 0 : ℝ) +
        Real.sqrt (Real.log ((cs.sum : ℝ) + 1) / ((cs.getD i 0 : ℝ) + 1 / 10 ^ 7) *
          min (1 / 4) ((m2.getD i 0 : ℝ) / ((cs.getD i 0 : ℝ) + 1 / 10 ^ 7) +
            Real.sqrt (2 * Real.log ((cs.sum : ℝ) + 1) / ((cs.getD i 0 : ℝ) + 1 / 10 ^ 7)))) := by
  have him : i < ms.length := by rw [hm]; exact hi
  simp only [UCB1Tuned.computeUcbs, List.getD_eq_getElem?_getD, List.getElem?_zipWith,
    List.getElem?_map, List.getElem?_range hi, List.getElem?_eq_getElem him,
    Option.map_some']
  rfl

/-- C6: after every `UCB1Tuned.update`, each stored confidence value is the
post-update mean plus the bonus `sqrt(ln(T+1)/(count+1e-7) * min(1/4, V))`
with `V = M2/(count+1e-7) + sqrt(2*ln(T+1)/(count+1e-7))` and `T` the total
count; the variance term feeding the bonus is capped at `1/4`. -/
theorem claim_C6 (s : UCB1Tuned) (a : ℕ) (r : ℚ) (i : ℕ)
    (hm : s.emp_means.length = s.counts.length)
    (hi : i < s.counts.length) :
    ((s.update a r).ucbs.getD i 0 =
      ((s.update a r).emp_means.getD i 0 : ℝ) +
        Real.sqrt (Real.log (((s.update a r).counts.sum : ℝ) + 1) /
            (((s.update a r).counts.getD i 0 : ℝ) + 1 / 10 ^ 7) *
          min (1 / 4) (((s.update a r).M2.getD i 0 : ℝ) /
              (((s.update a r).counts.getD i 0 : ℝ) + 1 / 10 ^ 7) +
            Real.sqrt (2 * Real.log (((s.update a r).counts.sum : ℝ) + 1) /
              (((s.update a r).counts.getD i 0 : ℝ) + 1 / 10 ^ 7))))) ∧
    min (1 / 4 : ℝ) (((s.update a r).M2.getD i 0 : ℝ) /
        (((s.update a r).counts.getD i 0 : ℝ) + 1 / 10 ^ 7) +
      Real.sqrt (2 * Real.log (((s.update a r).counts.sum : ℝ) + 1) /
        (((s.update a r).counts.getD i 0 : ℝ) + 1 / 10 ^ 7))) ≤ 1 / 4 := by
  have hucbs : (s.update a r).ucbs =
      UCB1Tuned.computeUcbs (s.update a r).counts (s.update a r).emp_means
        (s.update a r).M2 := rfl
  have hlenc : (s.update a r).counts.length = s.counts.length :=
    List.length_set _ _ _
  have hlenm : (s.update a r).emp_means.length = (s.update a r).counts.length := by
    rw [hlenc]
    calc (s.update a r).emp_means.length = s.emp_means.length := List.length_set _ _ _
    _ = s.counts.length := hm
  constructor
  · rw [hucbs]
    exact computeUcbsTuned_getD _ _ _ hlenm (by rw [hlenc]; exact hi)
  · exact min_le_left _ _

/-- Witness for C6: the single-arm case after one update of reward 1. -/
theorem claim_C6_witness :
    ((UCB1Tuned.reset 1).emp_means.length = (UCB1Tuned.reset 1).counts.length ∧
      0 < (UCB1Tuned.reset 1).counts.length) ∧
    (((UCB1Tuned.reset 1).update 0 1).ucbs.getD 0 0 =
      (((UCB1Tuned.reset 1).update 0 1).emp_means.getD 0 0 : ℝ) +
        Real.sqrt (Real.log ((((UCB1Tuned.reset 1).update 0 1).counts.sum : ℝ) + 1) /
            ((((UCB1Tuned.reset 1).update 0 1).counts.getD 0 0 : ℝ) + 1 / 10 ^ 7) *
          min (1 / 4) ((((UCB1Tuned.reset 1).update 0 1).M2.getD 0 0 : ℝ) /
              ((((UCB1Tuned.reset 1).update 0 1).counts.getD 0 0 : ℝ) + 1 / 10 ^ 7) +
            Real.sqrt (2 * Real.log ((((UCB1Tuned.reset 1).update 0 1).counts.sum : ℝ) + 1) /
              ((((UCB1Tuned.reset 1).update 0 1).counts.getD 0 0 : ℝ) + 1 / 10 ^ 7))))) ∧
    min (1 / 4 : ℝ) ((((UCB1Tuned.reset 1).update 0 1).M2.getD 0 0 : ℝ) /
        ((((UCB1Tuned.reset 1).update 0 1).counts.getD 0 0 : ℝ) + 1 / 10 ^ 7) +
      Real.sqrt (2 * Real.log ((((UCB1Tuned.reset 1).update 0 1).counts.sum : ℝ) + 1) /
        ((((UCB1Tuned.reset 1).update 0 1).counts.getD 0 0 : ℝ) + 1 / 10 ^ 7))) ≤ 1 / 4 :=
  ⟨⟨by simp [UCB1Tuned.reset], by simp [UCB1Tuned.reset]⟩,
    claim_C6 (UCB1Tuned.reset 1) 0 1 0 (by simp [UCB1Tuned.reset])
      (by simp [UCB1Tuned.reset])⟩

lemma argmaxAux_lt {α : Type} [LinearOrder α] :
    ∀ (xs : List α) (best : ℕ) (bv : α) (i : ℕ), best < i →
      argmaxAux xs best bv i < i + xs.length
  | [], best, bv, i, h => by simpa using h
  | x :: xs, best, bv, i, h => by
    simp only [argmaxAux, List.length_cons]
    split
    · have := argmaxAux_lt xs i x (i + 1) (Nat.lt_succ_self i)
      omega
    · have := argmaxAux_lt xs best bv (i + 1) (h.trans (Nat.lt_succ_self i))
      omega

lemma argmax_lt_length {α : Type} [LinearOrder α] :
    ∀ (l : List α), l ≠ [] → argmax l < l.length
  | [], h => absurd rfl h
  | x :: xs, _ => by
    have := argmaxAux_lt xs 0 x 1 Nat.one_pos
    simp only [argmax, List.length_cons]
    omega

lemma sum_range_map (f : ℕ → ℚ) : ∀ n : ℕ,
    ((List.range n).map f).sum = ∑ i ∈ Finset.range n, f i
  | 0 => by simp
  | n + 1 => by
    rw [List.range_succ, List.map_append, List.sum_append, Finset.sum_range_succ,
      sum_range_map f n]
    simp

lemma sum_range_getD : ∀ l : List ℚ, ∑ i ∈ Finset.range l.length, l.getD i 0 = l.sum
  | [] => by simp
  | x :: xs => by
    rw [List.length_cons, Finset.sum_range_succ']
    simp only [List.getD_cons_succ, List.getD_cons_zero, List.sum_cons]
    rw [sum_range_getD xs]
    ring

lemma pursuit_update_inv (s : Pursuit) (a : ℕ) (r : ℚ) {n : ℕ} (hn : 1 ≤ n)
    (hc : s.counts.length = n) (hm : s.emp_means.length = n)
    (hp : s.probs.length = n) (hs : s.probs.sum = 1) :
    (s.update a r).counts.length = n ∧ (s.update a r).emp_means.length = n ∧
    (s.update a r).probs.length = n ∧ (s.update a r).probs.sum = 1 := by
  have hc2 : (bumpStats s.counts s.emp_means a r).1.length = n := by
    rw [bumpStats_fst_length]; exact hc
  have hm2 : (bumpStats s.counts s.emp_means a r).2.length = n := by
    rw [bumpStats_snd_length]; exact hm
  refine ⟨hc2, hm2, ?_, ?_⟩ <;> simp only [Pursuit.update] <;> split_ifs with hz
  · exact hp
  · simp [hc2]
  · exact hs
  · set A := argmax (bumpStats s.counts s.emp_means a r).2 with hA
    have hAlt : A < n := by
      have hne : (bumpStats s.counts s.emp_means a r).2 ≠ [] := by
        intro hnil
        rw [hnil] at hm2
        simp at hm2
        omega
      have := argmax_lt_length (bumpStats s.counts s.emp_means a r).2 hne
      rw [hm2] at this
      exact this
    rw [hc2, sum_range_map]
    have hsplit : ∀ i : ℕ,
        (if i = A then s.probs.getD i 0 + s.lr * (1 - s.probs.getD i 0)
          else s.probs.getD i 0 + s.lr * (0 - s.probs.getD i 0)) =
        (s.probs.getD i 0 - s.lr * s.probs.getD i 0) + (if i = A then s.lr else 0) := by
      intro i
      by_cases hiA : i = A <;> simp [hiA] <;> ring
    simp only [hsplit]
    rw [Finset.sum_add_distrib, Finset.sum_ite_eq' (Finset.range n) A (fun _ => s.lr),
      Finset.sum_sub_distrib, ← Finset.mul_sum]
    have hgd : ∑ i ∈ Finset.range n, s.probs.getD i 0 = 1 := by
      rw [← hp, sum_range_getD, hs]
    rw [hgd, if_pos (Finset.mem_range.mpr hAlt)]
    ring

lemma pursuit_fold_inv : ∀ (seq : List (ℕ × ℚ)) (s : Pursuit) {n : ℕ}, 1 ≤ n →
    s.counts.length = n → s.emp_means.length = n → s.probs.length = n →
    s.probs.sum = 1 →
    (seq.foldl (fun s p => s.update p.1 p.2) s).probs.sum = 1
  | [], s, n, _, _, _, _, hs => hs
  | p :: rest, s, n, hn, hc, hm, hp, hs => by
    obtain ⟨h1, h2, h3, h4⟩ := pursuit_update_inv s p.1 p.2 hn hc hm hp hs
    exact pursuit_fold_inv rest (s.update p.1 p.2) hn h1 h2 h3 h4

lemma sum_map_exp_pos (l : List ℚ) (h : l ≠ []) :
    0 < (l.map (fun (p : ℚ) => Real.exp (p : ℝ))).sum := by
  cases l with
  | nil => exact absurd rfl h
  | cons x xs =>
    rw [List.map_cons, List.sum_cons]
    have h1 : 0 < Real.exp (x : ℝ) := Real.exp_pos _
    have h2 : 0 ≤ (xs.map (fun (p : ℚ) => Real.exp (p : ℝ))).sum := by
      refine List.sum_nonneg ?_
      intro y hy
      obtain ⟨p, _, rfl⟩ := List.mem_map.mp hy
      exact (Real.exp_pos _).le
    linarith

lemma sum_map_div (l : List ℝ) (c : ℝ) : (l.map (fun e => e / c)).sum = l.sum / c := by
  induction l with
  | nil => simp
  | cons x xs ih => simp only [List.map_cons, List.sum_cons, ih, add_div]

lemma rc_update_probs_sum (s : ReinforcementComparison) (a : ℕ) (r : ℚ)
    (h : s.preferences ≠ []) : (s.update a r).probs.sum = 1 := by
  have hpre : s.preferences.set a
      (s.preferences.getD a 0 + s.beta * (r - s.exp_rewards.getD a 0)) ≠ [] := by
    intro hnil
    apply h
    have := List.length_set s.preferences a
      (s.preferences.getD a 0 + s.beta * (r - s.exp_rewards.getD a 0))
    rw [hnil] at this
    exact List.length_eq_zero.mp this.symm
  have hpos := sum_map_exp_pos _ hpre
  simp only [ReinforcementComparison.update]
  rw [sum_map_div]
  exact div_self hpos.ne'

lemma rc_fold_inv : ∀ (seq : List (ℕ × ℚ)) (s : ReinforcementComparison) {n : ℕ},
    1 ≤ n → s.preferences.length = n → s.probs.sum = 1 →
    (seq.foldl (fun s p => s.update p.1 p.2) s).probs.sum = 1
  | [], _, _, _, _, hs => hs
  | p :: rest, s, n, hn, hpl, _ => by
    have hne : s.preferences ≠ [] := by
      intro hnil
      rw [hnil] at hpl
      simp at hpl
      omega
    have h1 : (s.update p.1 p.2).preferences.length = n := by
      simpa [ReinforcementComparison.update] using hpl
    exact rc_fold_inv rest (s.update p.1 p.2) hn h1 (rc_update_probs_sum s p.1 p.2 hne)

/-- C5: for `Pursuit` and `ReinforcementComparison`, starting from
`reset(n_arms)`, the selection-probability vector sums to exactly 1 after
every sequence of valid `update` calls, in exact arithmetic. -/
theorem claim_C5 (n : ℕ) (lr alpha beta : ℚ) (seq : List (ℕ × ℚ)) (hn : 1 ≤ n)
    (hseq : ∀ p ∈ seq, p.1 < n) :
    (Pursuit.run lr n seq).probs.sum = 1 ∧
    (ReinforcementComparison.run alpha beta n seq).probs.sum = 1 := by
  have hnq : ((n : ℚ)) ≠ 0 := Nat.cast_ne_zero.mpr (by omega)
  have hnr : ((n : ℝ)) ≠ 0 := Nat.cast_ne_zero.mpr (by omega)
  constructor
  · refine pursuit_fold_inv seq _ hn ?_ ?_ ?_ ?_ <;>
      simp [Pursuit.reset, List.sum_replicate, nsmul_eq_mul]
    exact mul_inv_cancel₀ hnq
  · refine rc_fold_inv seq _ hn ?_ ?_ <;>
      simp [ReinforcementComparison.reset, List.sum_replicate, nsmul_eq_mul]
    exact mul_inv_cancel₀ hnr

/-- Witness for C5: two arms, one update call. -/
theorem claim_C5_witness :
    (1 ≤ 2 ∧ ∀ p ∈ [((0 : ℕ), (1 : ℚ))], p.1 < 2) ∧
    (Pursuit.run (1/2) 2 [(0, 1)]).probs.sum = 1 ∧
    (ReinforcementComparison.run (1/2) (1/2) 2 [(0, 1)]).probs.sum = 1 :=
  ⟨⟨by decide, by decide⟩, claim_C5 2 (1/2) (1/2) (1/2) [(0, 1)] (by decide) (by decide)⟩

lemma exists_zero_of_sum_lt : ∀ cs : List ℕ, cs.sum < cs.length → 0 ∈ cs
  | [], h => by simp at h
  | x :: xs, h => by
    by_cases hx : x = 0
    · simp [hx]
    · have hx1 : 1 ≤ x := Nat.one_le_iff_ne_zero.mpr hx
      have hxs : xs.sum < xs.length := by
        simp only [List.sum_cons, List.length_cons] at h
        omega
      exact List.mem_cons_of_mem x (exists_zero_of_sum_lt xs hxs)

lemma findIdx?_zero_spec : ∀ cs : List ℕ, 0 ∈ cs →
    ∃ j, List.findIdx? (fun c => c == 0) cs = some j ∧ j < cs.length ∧
      cs.getD j 0 = 0 ∧ ∀ k < j, cs.getD k 0 ≠ 0
  | [], h => absurd h (List.not_mem_nil 0)
  | x :: xs, h => by
    by_cases hx : x = 0
    · refine ⟨0, ?_, by simp, by simp [hx], by omega⟩
      rw [List.findIdx?_cons]
      simp [hx]
    · have hmem : 0 ∈ xs := by
        rcases List.mem_cons.mp h with h0 | h0
        · exact absurd h0.symm hx
        · exact h0
      obtain ⟨j, hj, hlen, hz, hk⟩ := findIdx?_zero_spec xs hmem
      refine ⟨j + 1, ?_, by simpa using hlen, by simpa using hz, ?_⟩
      · rw [List.findIdx?_cons, List.findIdx?_succ, hj]
        simp [hx]
      · intro k hk1
        cases k with
        | zero => simpa using hx
        | succ m =>
          rw [List.getD_cons_succ]
          exact hk m (by omega)

lemma ucbSelect_total (cs : List ℕ) (us : List ℝ) (hne : cs ≠ [])
    (hlen : us.length = cs.length) :
    ∃ i, ucbSelect cs us = some i ∧ i < cs.length := by
  unfold ucbSelect
  split_ifs with h
  · obtain ⟨j, hj, hlen2, _, _⟩ := findIdx?_zero_spec cs (exists_zero_of_sum_lt cs h)
    exact ⟨j, hj, hlen2⟩
  · have hne2 : us ≠ [] := by
      intro hnil
      rw [hnil] at hlen
      exact hne (List.length_eq_zero.mp hlen.symm)
    have := argmax_lt_length us hne2
    exact ⟨argmax us, rfl, by rw [← hlen]; exact this⟩

/-- C10: for `UCB1` and `UCB1Tuned`, on any state with a non-empty counts
array (and the `ucbs` array of matching size that `reset`/`update` maintain),
`select_next_arm` returns an arm index in `[0, n_arms)`: in the warm-up branch
`sum(counts) < n_arms` guarantees a zero-count arm by pigeonhole, and the
argmax branch returns an index of `ucbs`. -/
theorem claim_C10 :
    (∀ s : UCB1, s.counts ≠ [] → s.ucbs.length = s.counts.length →
      ∃ i, (UCB1.select_next_arm s).1 = some i ∧ i < s.counts.length) ∧
    (∀ s : UCB1Tuned, s.counts ≠ [] → s.ucbs.length = s.counts.length →
      ∃ i, (UCB1Tuned.select_next_arm s).1 = some i ∧ i < s.counts.length) :=
  ⟨fun s h1 h2 => ucbSelect_total s.counts s.ucbs h1 h2,
    fun s h1 h2 => ucbSelect_total s.counts s.ucbs h1 h2⟩

/-- Witness for C10 on freshly reset two-arm states. -/
theorem claim_C10_witness :
    ((UCB1.reset 2).counts ≠ [] ∧
      (UCB1.reset 2).ucbs.length = (UCB1.reset 2).counts.length ∧
      (UCB1Tuned.reset 2).counts ≠ [] ∧
      (UCB1Tuned.reset 2).ucbs.length = (UCB1Tuned.reset 2).counts.length) ∧
    (∃ i, (UCB1.select_next_arm (UCB1.reset 2)).1 = some i ∧
      i < (UCB1.reset 2).counts.length) ∧
    (∃ i, (UCB1Tuned.select_next_arm (UCB1Tuned.reset 2)).1 = some i ∧
      i < (UCB1Tuned.reset 2).counts.length) :=
  ⟨⟨by simp [UCB1.reset], by simp [UCB1.reset], by simp [UCB1Tuned.reset],
      by simp [UCB1Tuned.reset]⟩,
    claim_C10.1 (UCB1.reset 2) (by simp [UCB1.reset]) (by simp [UCB1.reset]),
    claim_C10.2 (UCB1Tuned.reset 2) (by simp [UCB1Tuned.reset])
      (by simp [UCB1Tuned.reset])⟩

lemma argmax_three {α : Type} [LinearOrder α] {a b c : α} (h1 : ¬ a < b) (h2 : ¬ a < c) :
    argmax [a, b, c] = 0 := by
  simp [argmax, argmaxAux, h1, h2]

/-- A reachable `UCB1` state with a zero-count arm outside the warm-up phase:
three updates of arm 0, each with the large reward `10^6`. -/
noncomputable def ucb1Cx : UCB1 := UCB1.run 3 [(0, 10 ^ 6), (0, 10 ^ 6), (0, 10 ^ 6)]

/-- C4 (counterexample): in the reachable state with counts `[3, 0, 0]` and a
huge mean on arm 0, arm 1 has count 0 yet `select_next_arm` returns arm 0 —
the warm-up test is `sum(counts) < n_arms`, not "some arm has count 0", and
here `argmax(ucbs)` beats the zero-count arms' bonus. -/
theorem claim_C4_counterexample :
    ucb1Cx.counts.getD 1 0 = 0 ∧
    ucb1Cx.counts.getD 0 0 ≠ 0 ∧
    (UCB1.select_next_arm ucb1Cx).1 = some 0 := by
  have hcounts : ucb1Cx.counts = [3, 0, 0] := by
    norm_num [ucb1Cx, UCB1.run, UCB1.update, UCB1.reset, bumpStats, List.replicate, List.getD]
  have hmeans : ucb1Cx.emp_means = [10 ^ 6, 0, 0] := by
    norm_num [ucb1Cx, UCB1.run, UCB1.update, UCB1.reset, bumpStats, List.replicate, List.getD]
  have hucbs : ucb1Cx.ucbs = UCB1.computeUcbs ucb1Cx.counts ucb1Cx.emp_means := rfl
  rw [hcounts, hmeans] at hucbs
  simp only [UCB1.computeUcbs] at hucbs
  norm_num [List.range_succ] at hucbs
  have hsqrt4 : Real.sqrt 4 = 2 := by
    rw [show (4 : ℝ) = 2 ^ 2 by norm_num, Real.sqrt_sq (by norm_num : (0 : ℝ) ≤ 2)]
  have h2le : Real.sqrt 2 ≤ 2 := by
    have h := Real.sqrt_le_sqrt (show (2 : ℝ) ≤ 4 by norm_num)
    rwa [hsqrt4] at h
  have hlog4 : Real.log 4 ≤ 4 := by
    have h := Real.log_le_sub_one_of_pos (show (0 : ℝ) < 4 by norm_num)
    linarith
  have hsqlog : Real.sqrt (Real.log 4) ≤ 2 := by
    have h := Real.sqrt_le_sqrt hlog4
    rwa [hsqrt4] at h
  have hs7 : Real.sqrt 10000000 ≤ 10000 := by
    have h := Real.sqrt_le_sqrt (show (10000000 : ℝ) ≤ 100000000 by norm_num)
    rwa [show (100000000 : ℝ) = 10000 ^ 2 by norm_num,
      Real.sqrt_sq (by norm_num : (0 : ℝ) ≤ 10000)] at h
  have hmul1 : Real.sqrt 2 * Real.sqrt (Real.log 4) ≤ 4 := by
    calc Real.sqrt 2 * Real.sqrt (Real.log 4) ≤ 2 * 2 :=
          mul_le_mul h2le hsqlog (Real.sqrt_nonneg _) (by norm_num)
      _ = 4 := by norm_num
  have hprod : Real.sqrt 2 * Real.sqrt (Real.log 4) * Real.sqrt 10000000 ≤ 1000000 := by
    calc Real.sqrt 2 * Real.sqrt (Real.log 4) * Real.sqrt 10000000 ≤ 4 * 10000 :=
          mul_le_mul hmul1 hs7 (Real.sqrt_nonneg _) (by norm_num)
      _ ≤ 1000000 := by norm_num
  have hX : 0 ≤ Real.sqrt 2 * Real.sqrt (Real.log 4) /
      (Real.sqrt 30000001 / Real.sqrt 10000000) :=
    div_nonneg (mul_nonneg (Real.sqrt_nonneg _) (Real.sqrt_nonneg _))
      (div_nonneg (Real.sqrt_nonneg _) (Real.sqrt_nonneg _))
  refine ⟨by rw [hcounts]; rfl, by rw [hcounts]; norm_num, ?_⟩
  have hsel : (UCB1.select_next_arm ucb1Cx).1 = ucbSelect ucb1Cx.counts ucb1Cx.ucbs := rfl
  rw [hsel, hcounts, hucbs]
  unfold ucbSelect
  rw [if_neg (by norm_num)]
  exact congrArg some (argmax_three (not_lt.mpr (by linarith)) (not_lt.mpr (by linarith)))

lemma ucbSelect_warmup (cs : List ℕ) (us : List ℝ) (h : cs.sum < cs.length) :
    ∃ j, ucbSelect cs us = some j ∧ cs.getD j 0 = 0 ∧ ∀ k < j, cs.getD k 0 ≠ 0 := by
  obtain ⟨j, hj, _, hz, hk⟩ := findIdx?_zero_spec cs (exists_zero_of_sum_lt cs h)
  refine ⟨j, ?_, hz, hk⟩
  unfold ucbSelect
  rw [if_pos h, hj]

lemma ucbSelect_argmax (cs : List ℕ) (us : List ℝ) (h : ¬ cs.sum < cs.length) :
    ucbSelect cs us = some (argmax us) := by
  unfold ucbSelect
  rw [if_neg h]

/-- C4 (amended): for `UCB1` and `UCB1Tuned`, the warm-up branch applies
exactly while `sum(counts) < n_arms` — there it returns the lowest-indexed
zero-count arm — and once `sum(counts) ≥ n_arms` selection is
`argmax(confidence_value)` (even if zero-count arms remain); with
`n_arms = 5` and zero prior updates, five consecutive `select_next_arm`
calls, each followed by an update of the returned arm, return `0,1,2,3,4`. -/
theorem claim_C4_amended :
    (∀ s : UCB1, s.counts.sum < s.counts.length →
      ∃ j, (UCB1.select_next_arm s).1 = some j ∧ s.counts.getD j 0 = 0 ∧
        ∀ k < j, s.counts.getD k 0 ≠ 0) ∧
    (∀ s : UCB1, ¬ s.counts.sum < s.counts.length →
      (UCB1.select_next_arm s).1 = some (argmax s.ucbs)) ∧
    (∀ s : UCB1Tuned, s.counts.sum < s.counts.length →
      ∃ j, (UCB1Tuned.select_next_arm s).1 = some j ∧ s.counts.getD j 0 = 0 ∧
        ∀ k < j, s.counts.getD k 0 ≠ 0) ∧
    (∀ s : UCB1Tuned, ¬ s.counts.sum < s.counts.length →
      (UCB1Tuned.select_next_arm s).1 = some (argmax s.ucbs)) ∧
    ((UCB1.select_next_arm (UCB1.reset 5)).1 = some 0 ∧
      (UCB1.select_next_arm ((UCB1.reset 5).update 0 1)).1 = some 1 ∧
      (UCB1.select_next_arm (((UCB1.reset 5).update 0 1).update 1 1)).1 = some 2 ∧
      (UCB1.select_next_arm ((((UCB1.reset 5).update 0 1).update 1 1).update 2 1)).1 =
        some 3 ∧
      (UCB1.select_next_arm
        (((((UCB1.reset 5).update 0 1).update 1 1).update 2 1).update 3 1)).1 = some 4) ∧
    ((UCB1Tuned.select_next_arm (UCB1Tuned.reset 5)).1 = some 0 ∧
      (UCB1Tuned.select_next_arm ((UCB1Tuned.reset 5).update 0 1)).1 = some 1 ∧
      (UCB1Tuned.select_next_arm (((UCB1Tuned.reset 5).update 0 1).update 1 1)).1 =
        some 2 ∧
      (UCB1Tuned.select_next_arm
        ((((UCB1Tuned.reset 5).update 0 1).update 1 1).update 2 1)).1 = some 3 ∧
      (UCB1Tuned.select_next_arm
        (((((UCB1Tuned.reset 5).update 0 1).update 1 1).update 2 1).update 3 1)).1 =
        some 4) := by
  refine ⟨fun s h => ucbSelect_warmup s.counts s.ucbs h,
    fun s h => ucbSelect_argmax s.counts s.ucbs h,
    fun s h => ucbSelect_warmup s.counts s.ucbs h,
    fun s h => ucbSelect_argmax s.counts s.ucbs h,
    ⟨?_, ?_, ?_, ?_, ?_⟩, ⟨?_, ?_, ?_, ?_, ?_⟩⟩ <;> decide

/-- Witness for the amended C4: the warm-up clause at a fresh 2-arm state and
the argmax clause at a 1-arm state past warm-up, for both classes. -/
theorem claim_C4_amended_witness :
    ((UCB1.reset 2).counts.sum < (UCB1.reset 2).counts.length ∧
      ¬ (UCB1.mk [2] [0] [0]).counts.sum < (UCB1.mk [2] [0] [0]).counts.length ∧
      (UCB1Tuned.reset 2).counts.sum < (UCB1Tuned.reset 2).counts.length ∧
      ¬ (UCB1Tuned.mk [2] [0] [0] [0]).counts.sum <
        (UCB1Tuned.mk [2] [0] [0] [0]).counts.length) ∧
    (∃ j, (UCB1.select_next_arm (UCB1.reset 2)).1 = some j ∧
      (UCB1.reset 2).counts.getD j 0 = 0 ∧ ∀ k < j, (UCB1.reset 2).counts.getD k 0 ≠ 0) ∧
    (UCB1.select_next_arm (UCB1.mk [2] [0] [0])).1 =
      some (argmax (UCB1.mk [2] [0] [0]).ucbs) ∧
    (∃ j, (UCB1Tuned.select_next_arm (UCB1Tuned.reset 2)).1 = some j ∧
      (UCB1Tuned.reset 2).counts.getD j 0 = 0 ∧
      ∀ k < j, (UCB1Tuned.reset 2).counts.getD k 0 ≠ 0) ∧
    (UCB1Tuned.select_next_arm (UCB1Tuned.mk [2] [0] [0] [0])).1 =
      some (argmax (UCB1Tuned.mk [2] [0] [0] [0]).ucbs) :=
  ⟨⟨by decide, by decide, by decide, by decide⟩,
    claim_C4_amended.1 (UCB1.reset 2) (by decide),
    claim_C4_amended.2.1 (UCB1.mk [2] [0] [0]) (by decide),
    claim_C4_amended.2.2.1 (UCB1Tuned.reset 2) (by decide),
    claim_C4_amended.2.2.2.1 (UCB1Tuned.mk [2] [0] [0] [0]) (by decide)⟩

end Deebo
